import Mathlib

/-!
Shallow embedding of the adaptive-quiz application (`proj.py`): the Elo
rating updater, the difficulty classifier, the per-topic rating store, the
answer grader fallback, and the session state machine driven by the
Streamlit submit / next / restart handlers.

Numeric conventions: ratings and timestamps carried by the program state
are modelled as rationals (every concrete value the program manipulates is
a rational); the Elo formula itself uses a real-valued exponential
`10 ^ ((o - r) / 400)`, so `calculate_elo` goes through `ℝ` and rounds to
an integer exactly as the source's `round(new_elo)` does.
-/

/-- One grading result, as produced by `evaluate_answer` (the JSON object
returned by the model, or the fallback dictionary built in the `except`
branch, where `model_answer` and `key_concepts_missed` are absent). -/
structure GradeResult where
  is_correct : Bool
  score_percentage : ℤ
  explanation : String
  model_answer : Option String
  key_concepts_missed : List String
deriving DecidableEq, Repr

/-- One generated question, as produced by `generate_question`. -/
structure Question where
  question : String
  qtype : String
  options : Option (List String)
  correct_option : Option String
  hint : Option String
  difficulty_rating_estimate : Option ℚ
deriving DecidableEq, Repr

/-- One entry of `qs["history"]`, appended by the submit handler. -/
structure HistoryEntry where
  question : String
  user_answer : String
  is_correct : Bool
  score_gained : ℤ
  elo_after : ℚ
  streak : ℕ
deriving DecidableEq, Repr

/-- The `st.session_state.quiz_state` dictionary. -/
structure QuizState where
  active : Bool
  finished : Bool
  context : String
  topic_name : String
  history : List HistoryEntry
  elo : ℚ
  streak : ℕ
  total_score : ℤ
  current_q : Option Question
  feedback : Option GradeResult
  q_count : ℕ
  q_start_timestamp : Option ℚ
  hint_used : Bool
deriving DecidableEq, Repr

/-- The expected score term `1 / (1 + 10 ** ((question_difficulty_rating -
current_elo) / 400))` of `calculate_elo`. -/
noncomputable def expected_score (current_elo question_difficulty_rating : ℚ) : ℝ :=
  1 / (1 + (10 : ℝ) ^ (((question_difficulty_rating : ℝ) - (current_elo : ℝ)) / 400))

/-- `calculate_elo(current_elo, is_correct, question_difficulty_rating)`:
the standard Elo update with K = 32, rounded to the nearest integer. -/
noncomputable def calculate_elo (current_elo : ℚ) (is_correct : Bool)
    (question_difficulty_rating : ℚ) : ℤ :=
  round ((current_elo : ℝ) +
    32 * ((if is_correct then (1 : ℝ) else 0) -
      expected_score current_elo question_difficulty_rating))

/-- `get_difficulty_label(elo)`: label, css class and representative rating
of the difficulty tier of a rating. -/
def get_difficulty_label (elo : ℚ) : String × String × ℚ :=
  if elo < 1300 then ("Easy", "diff-easy", 1100)
  else if elo < 1500 then ("Medium", "diff-medium", 1400)
  else if elo < 1700 then ("Hard", "diff-hard", 1600)
  else ("Expert", "diff-expert", 1800)

/-- The per-topic record stored under a topic key in `quiz_data.json`: a
JSON object that may or may not carry an `elo` field. -/
structure TopicRecord where
  elo : Option ℚ
deriving DecidableEq, Repr

/-- The state of the `quiz_data.json` file: absent, unparseable, or a JSON
mapping from topic name to record (an association list, first key wins, as
for a JSON object). -/
inductive StoreFile where
  | missing : StoreFile
  | corrupt : StoreFile
  | data : List (String × TopicRecord) → StoreFile
deriving DecidableEq, Repr

/-- First-match lookup in the topic mapping (`data.get(topic_name, {})`). -/
def lookupTopic : List (String × TopicRecord) → String → Option TopicRecord
  | [], _ => none
  | (k, r) :: rest, t => if k = t then some r else lookupTopic rest t

/-- `data[topic_name]['elo'] = elo` on the mapping: update the record of
`topic_name` in place (creating it at the end when absent), leaving every
other entry untouched. -/
def setTopicElo : List (String × TopicRecord) → String → ℚ → List (String × TopicRecord)
  | [], t, x => [(t, ⟨some x⟩)]
  | (k, r) :: rest, t, x =>
      if k = t then (k, { r with elo := some x }) :: rest
      else (k, r) :: setTopicElo rest t x

/-- `load_topic_data(topic_name)`: default 1200 when the file is missing or
unreadable, else `data.get(topic_name, {}).get('elo', 1200)`. -/
def load_topic_data (topic_name : String) (fs : StoreFile) : ℚ :=
  match fs with
  | .missing => 1200
  | .corrupt => 1200
  | .data m => (((lookupTopic m topic_name).getD ⟨none⟩).elo).getD 1200

/-- `save_topic_data(topic_name, elo)`: reread the whole mapping (empty on
a missing or unreadable file), set the topic's `elo`, write it back. -/
def save_topic_data (topic_name : String) (elo : ℚ) (fs : StoreFile) : StoreFile :=
  match fs with
  | .missing => .data (setTopicElo [] topic_name elo)
  | .corrupt => .data (setTopicElo [] topic_name elo)
  | .data m => .data (setTopicElo m topic_name elo)

/-- `evaluate_answer`, abstracted over the model call: a successful call
yields the parsed `GradeResult`; any exception (transport error or
malformed response, carried as the detail string) yields the fallback
dictionary of the `except` branch. -/
def evaluate_answer (oracle : Except String GradeResult) : GradeResult :=
  match oracle with
  | .ok r => r
  | .error e =>
      { is_correct := false
        score_percentage := 0
        explanation := "Error: " ++ e
        model_answer := none
        key_concepts_missed := [] }

/-- The fixed feedback dictionary built by the timeout branch of the
submit handler. -/
def timeoutFeedback : GradeResult :=
  { is_correct := false
    score_percentage := 0
    explanation := "Time Limit Exceeded. You must submit your answer within 2 minutes."
    model_answer := some "N/A (Time Limit)"
    key_concepts_missed := [] }

/-- The submit handler (`if submitted:` block): timeout check first, then
the empty-answer guard, then grading, Elo update, streak and score update,
and the history append. `ts` is `qs["q_start_timestamp"]`, `submit_time`
is `time.time()` at submission. -/
noncomputable def submit_answer (qs : QuizState) (q_data : Question)
    (user_input : String) (submit_time ts : ℚ)
    (oracle : Except String GradeResult) : QuizState :=
  if submit_time - ts > 120 then
    { qs with
        feedback := some timeoutFeedback
        elo := ((calculate_elo qs.elo false qs.elo : ℤ) : ℚ)
        streak := 0 }
  else if user_input = "" then qs
  else
    let result := evaluate_answer oracle
    let is_correct := if result.score_percentage > 70 then true else result.is_correct
    let score_base := result.score_percentage - (if qs.hint_used then 50 else 0)
    let q_rating_actual :=
      q_data.difficulty_rating_estimate.getD (get_difficulty_label qs.elo).2.2
    let new_elo : ℚ := ((calculate_elo qs.elo is_correct q_rating_actual : ℤ) : ℚ)
    let new_streak := if is_correct then qs.streak + 1 else 0
    { qs with
        feedback := some result
        elo := new_elo
        streak := new_streak
        total_score := qs.total_score + max 0 score_base
        history := qs.history ++
          [{ question := q_data.question
             user_answer := user_input
             is_correct := is_correct
             score_gained := max 0 score_base
             elo_after := new_elo
             streak := new_streak }] }

/-- User-visible events of the session state machine: receiving a fresh
question from the model, revealing the hint, submitting an answer (with
the wall-clock time and the outcome of the grading call), advancing, and
restarting from the results screen. -/
inductive Event where
  | getQuestion : Question → ℚ → Event
  | revealHint : Event
  | submit : String → ℚ → Except String GradeResult → Event
  | next : Event
  | restart : Event

/-- One step of the session state machine. The quiz loop (question fetch,
hint, submit, next) runs only on the `active` and not `finished` branch of
the UI; `restart` is offered only on the results screen. An event whose
guard fails leaves the state unchanged. -/
noncomputable def step (q_limit : ℕ) (qs : QuizState) : Event → QuizState
  | .getQuestion q now =>
      if qs.active = true ∧ qs.finished = false ∧ qs.current_q = none then
        { qs with
            current_q := some q
            hint_used := false
            q_start_timestamp := some now }
      else qs
  | .revealHint =>
      if qs.active = true ∧ qs.finished = false ∧ qs.current_q ≠ none ∧
          qs.hint_used = false then
        { qs with hint_used := true }
      else qs
  | .submit ans now oracle =>
      if qs.active = true ∧ qs.finished = false then
        match qs.current_q, qs.q_start_timestamp with
        | some qd, some ts => submit_answer qs qd ans now ts oracle
        | _, _ => qs
      else qs
  | .next =>
      if qs.active = true ∧ qs.finished = false ∧ qs.feedback ≠ none then
        { qs with
            current_q := none
            feedback := none
            q_count := qs.q_count + 1
            finished := if q_limit ≤ qs.q_count + 1 then true else qs.finished }
      else qs
  | .restart =>
      if qs.active = true ∧ qs.finished = true then
        { qs with active := false }
      else qs

/-- The fresh quiz state built by the Start Quiz handler. -/
def start_state (topic context : String) (start_elo : ℚ) : QuizState :=
  { active := true
    finished := false
    context := context
    topic_name := topic
    history := []
    elo := start_elo
    streak := 0
    total_score := 0
    current_q := none
    feedback := none
    q_count := 0
    q_start_timestamp := none
    hint_used := false }

/-- States reachable from some freshly started quiz by the event steps. -/
inductive Reachable (q_limit : ℕ) : QuizState → Prop where
  | start (topic context : String) (start_elo : ℚ) :
      Reachable q_limit (start_state topic context start_elo)
  | step {qs : QuizState} (e : Event) :
      Reachable q_limit qs → Reachable q_limit (step q_limit qs e)

/-! ## Shared concrete data used by the concrete instantiations below -/

/-- A concrete open-analysis question carrying an explicit difficulty
estimate of 1400. -/
def sampleQuestion : Question :=
  { question := "Why does the argument hold?"
    qtype := "detailed_analysis"
    options := none
    correct_option := none
    hint := some "consider the premise"
    difficulty_rating_estimate := some 1400 }

/-- A concrete grading result whose boolean says incorrect while the score
is 75 (the spec's override example). -/
def sampleGrade : GradeResult :=
  { is_correct := false
    score_percentage := 75
    explanation := "mostly sound"
    model_answer := some "the model answer"
    key_concepts_missed := [] }

/-- A concrete grading result scoring 80 (the spec's hint-penalty
example). -/
def grade80 : GradeResult :=
  { is_correct := false
    score_percentage := 80
    explanation := "good analysis"
    model_answer := some "the model answer"
    key_concepts_missed := ["rigor"] }

/-- A freshly started session that has received a question at time 0. -/
def c1State : QuizState :=
  { start_state "logic" "logic notes" 1200 with
      current_q := some sampleQuestion
      q_start_timestamp := some 0 }

/-- A session awaiting an answer with the hint already revealed. -/
def c4State : QuizState :=
  { start_state "logic" "logic notes" 1200 with
      current_q := some sampleQuestion
      q_start_timestamp := some 0
      hint_used := true }

/-! ## Rating updater lemmas -/

lemma expected_score_pos (r o : ℚ) : 0 < expected_score r o := by
  unfold expected_score
  have ht : (0:ℝ) < (10 : ℝ) ^ (((o : ℝ) - (r : ℝ)) / 400) :=
    Real.rpow_pos_of_pos (by norm_num) _
  positivity

lemma expected_score_lt_one (r o : ℚ) : expected_score r o < 1 := by
  unfold expected_score
  have ht : (0:ℝ) < (10 : ℝ) ^ (((o : ℝ) - (r : ℝ)) / 400) :=
    Real.rpow_pos_of_pos (by norm_num) _
  rw [div_lt_one (by linarith)]
  linarith

lemma round_mono_of_le {x y : ℝ} (h : x ≤ y) : round x ≤ round y := by
  rw [round_eq, round_eq]
  exact Int.floor_mono (by linarith)

/-- Claim C2 (amended): in exact arithmetic the expected score is never 0
or 1, and for every integer current rating `r` and opponent rating `o` the
update after a win is at least `r` and the update after a loss is at most
`r` (strictness fails: the rounded update can return `r` itself). -/
theorem C2_elo_monotonicity (r : ℤ) (o : ℚ) :
    (expected_score (r : ℚ) o ≠ 0 ∧ expected_score (r : ℚ) o ≠ 1) ∧
    (r : ℤ) ≤ calculate_elo (r : ℚ) true o ∧ calculate_elo (r : ℚ) false o ≤ (r : ℤ) := by
  have hpos := expected_score_pos (r : ℚ) o
  have hlt := expected_score_lt_one (r : ℚ) o
  have hif1 : (if (true : Bool) = true then (1:ℝ) else 0) = 1 := rfl
  have hif0 : (if (false : Bool) = true then (1:ℝ) else 0) = 0 := rfl
  have hcast : (((r : ℚ)) : ℝ) = ((r : ℤ) : ℝ) := by push_cast; ring
  refine ⟨⟨by linarith, by linarith⟩, ?_, ?_⟩
  · unfold calculate_elo
    rw [hif1, hcast]
    have hle : ((r : ℤ) : ℝ) ≤ ((r : ℤ) : ℝ) + 32 * (1 - expected_score (r : ℚ) o) := by
      nlinarith
    calc (r : ℤ) = round (((r : ℤ) : ℝ)) := (round_intCast r).symm
      _ ≤ _ := round_mono_of_le hle
  · unfold calculate_elo
    rw [hif0, hcast]
    have hle : ((r : ℤ) : ℝ) + 32 * (0 - expected_score (r : ℚ) o) ≤ ((r : ℤ) : ℝ) := by
      nlinarith
    calc round (((r : ℤ) : ℝ) + 32 * (0 - expected_score (r : ℚ) o))
        ≤ round (((r : ℤ) : ℝ)) := round_mono_of_le hle
      _ = r := round_intCast r

/-- Claim C2, counterexample to strict monotonicity: at rating 2000
against opponent rating 1200 the expected score is 100/101 (neither 0 nor
1), the win bonus 32/101 rounds away, and the updated rating equals 2000
rather than exceeding it. -/
theorem C2_strictness_counterexample :
    expected_score 2000 1200 ≠ 0 ∧ expected_score 2000 1200 ≠ 1 ∧
    ¬ ((2000 : ℤ) < calculate_elo 2000 true 1200) := by
  have hexp : expected_score 2000 1200 = 100 / 101 := by
    unfold expected_score
    have h2 : ((((1200:ℚ)) : ℝ) - (((2000:ℚ)) : ℝ)) / 400 = ((-2 : ℤ) : ℝ) := by
      push_cast; norm_num
    rw [h2, Real.rpow_intCast]
    norm_num
  have hval : calculate_elo 2000 true 1200 = 2000 := by
    unfold calculate_elo
    rw [hexp]
    have harg : (((2000:ℚ)) : ℝ) +
        32 * ((if (true : Bool) = true then (1:ℝ) else 0) - 100 / 101) =
        2000 + (32 / 101 + 1 / 2) - 1 / 2 := by norm_num
    rw [harg, round_eq]
    have hfl : ⌊(2000:ℝ) + (32 / 101 + 1 / 2) - 1 / 2 + 1 / 2⌋ = 2000 := by
      rw [show (2000:ℝ) + (32 / 101 + 1 / 2) - 1 / 2 + 1 / 2 =
        2000 + (32 / 101 + 1 / 2) by ring]
      rw [Int.floor_eq_iff]
      constructor <;> norm_num
    rw [hfl]
  rw [hexp, hval]
  norm_num

/-- Claim C10: the timeout penalty, a loss against an opponent rating
equal to the current integer rating, is exactly 16 points: the expected
score is exactly one half, so `calculate_elo r false r = r - 16`. -/
theorem C10_timeout_penalty (r : ℤ) : calculate_elo (r : ℚ) false (r : ℚ) = r - 16 := by
  unfold calculate_elo expected_score
  have h0 : (((r : ℚ) : ℝ) - ((r : ℚ) : ℝ)) / 400 = (0 : ℝ) := by
    rw [sub_self, zero_div]
  rw [h0, Real.rpow_zero]
  have h1 : ((r : ℚ) : ℝ) + 32 * ((if (false : Bool) = true then (1:ℝ) else 0) - 1 / (1 + 1)) =
      (((r - 16 : ℤ)) : ℝ) := by push_cast; ring
  rw [h1, round_intCast]

/-- Claim C5: the difficulty classifier is a total function partitioning
the ratings into exactly the four tiers Easy (below 1300, representative
1100), Medium (1300 inclusive to 1500 exclusive, representative 1400),
Hard (1500 inclusive to 1700 exclusive, representative 1600) and Expert
(1700 and above, representative 1800); each boundary belongs to the
higher tier, in particular 1300 is Medium. -/
theorem C5_difficulty_partition (r : ℚ) :
    (get_difficulty_label r = ("Easy", "diff-easy", (1100 : ℚ)) ↔ r < 1300) ∧
    (get_difficulty_label r = ("Medium", "diff-medium", (1400 : ℚ)) ↔ 1300 ≤ r ∧ r < 1500) ∧
    (get_difficulty_label r = ("Hard", "diff-hard", (1600 : ℚ)) ↔ 1500 ≤ r ∧ r < 1700) ∧
    (get_difficulty_label r = ("Expert", "diff-expert", (1800 : ℚ)) ↔ 1700 ≤ r) ∧
    get_difficulty_label (1300 : ℚ) = ("Medium", "diff-medium", (1400 : ℚ)) := by
  unfold get_difficulty_label
  refine ⟨?_, ?_, ?_, ?_, by norm_num⟩ <;>
    split_ifs with h1 h2 h3 <;> simp_all [Prod.ext_iff] <;>
    first | linarith | (intro h; linarith)

/-! ## Rating store lemmas -/

lemma elo_lookup_set_same (m : List (String × TopicRecord)) (t : String) (x : ℚ) :
    (((lookupTopic (setTopicElo m t x) t).getD ⟨none⟩).elo) = some x := by
  induction m with
  | nil => simp [setTopicElo, lookupTopic]
  | cons hd tl ih =>
      obtain ⟨k, r⟩ := hd
      by_cases hk : k = t
      · simp [setTopicElo, hk, lookupTopic]
      · simp [setTopicElo, hk, lookupTopic, ih]

lemma lookup_set_other (m : List (String × TopicRecord)) (t t2 : String) (x : ℚ)
    (h : t2 ≠ t) : lookupTopic (setTopicElo m t x) t2 = lookupTopic m t2 := by
  have h2 : ¬ t = t2 := fun hh => h hh.symm
  induction m with
  | nil => simp [setTopicElo, lookupTopic, h2]
  | cons hd tl ih =>
      obtain ⟨k, r⟩ := hd
      by_cases hk : k = t
      · subst hk
        simp [setTopicElo, lookupTopic, h2]
      · by_cases hk2 : k = t2
        · simp [setTopicElo, hk, lookupTopic, hk2, h]
        · simp [setTopicElo, hk, lookupTopic, hk2, ih]

/-- Claim C6: writing a rating for a topic and reading it back returns
exactly that rating, and a write never changes what is read for any other
topic, whatever the prior state of the store file. -/
theorem C6_store_roundtrip (fs : StoreFile) (t t2 : String) (x : ℚ) :
    load_topic_data t (save_topic_data t x fs) = x ∧
    (t2 ≠ t → load_topic_data t2 (save_topic_data t x fs) = load_topic_data t2 fs) := by
  constructor
  · cases fs <;> simp [save_topic_data, load_topic_data, elo_lookup_set_same]
  · intro h
    have h2 : ¬ t = t2 := fun hh => h hh.symm
    cases fs with
    | missing =>
        simp [save_topic_data, load_topic_data, setTopicElo, lookupTopic, h2]
    | corrupt =>
        simp [save_topic_data, load_topic_data, setTopicElo, lookupTopic, h2]
    | data m =>
        simp [save_topic_data, load_topic_data, lookup_set_other _ _ _ _ h]

/-- Witness for claim C6 at a concrete store holding algebra at 1350:
writing geometry to 1500 reads back 1500 and leaves algebra unchanged. -/
theorem C6_store_roundtrip_witness :
    load_topic_data "geometry"
      (save_topic_data "geometry" 1500 (.data [("algebra", ⟨some 1350⟩)])) = 1500 ∧
    load_topic_data "algebra"
      (save_topic_data "geometry" 1500 (.data [("algebra", ⟨some 1350⟩)])) =
      load_topic_data "algebra" (.data [("algebra", ⟨some 1350⟩)]) := by
  have h := C6_store_roundtrip (.data [("algebra", ⟨some 1350⟩)]) "geometry" "algebra" 1500
  exact ⟨h.1, h.2 (by decide)⟩

/-- Claim C7: the loader returns the default 1200 when the store file is
missing, when it is unreadable or corrupt, when the topic key is absent,
and when the topic record lacks a rating; the loader is a total function,
so read and parse failures never propagate. -/
theorem C7_store_default (t : String) :
    load_topic_data t .missing = 1200 ∧
    load_topic_data t .corrupt = 1200 ∧
    (∀ m : List (String × TopicRecord), lookupTopic m t = none →
      load_topic_data t (.data m) = 1200) ∧
    (∀ (m : List (String × TopicRecord)) (r : TopicRecord),
      lookupTopic m t = some r → r.elo = none → load_topic_data t (.data m) = 1200) := by
  refine ⟨rfl, rfl, ?_, ?_⟩
  · intro m hm
    simp [load_topic_data, hm]
  · intro m r hm hr
    simp [load_topic_data, hm, hr]

/-- Witness for claim C7: reading algebra from a missing file, a corrupt
file, and a store holding only geometry all return 1200. -/
theorem C7_store_default_witness :
    load_topic_data "algebra" .missing = 1200 ∧
    load_topic_data "algebra" .corrupt = 1200 ∧
    load_topic_data "algebra" (.data [("geometry", ⟨some 1500⟩)]) = 1200 := by
  have h := C7_store_default "algebra"
  exact ⟨h.1, h.2.1, h.2.2.1 [("geometry", ⟨some 1500⟩)] (by decide)⟩

/-! ## Submit handler: timeout, override, hint penalty, degraded grading -/

/-- Claim C1 (amended): submitting more than 120 seconds after the
question started forces the timeout outcome — the grading call is never
consulted (the step does not depend on the oracle argument), the feedback
is the fixed incorrect record with score 0, the streak resets to 0 and the
rating is updated as a loss against the current rating itself; no
HistoryEntry is appended, the history and the total score are unchanged. -/
theorem C1_timeout_no_grading (q_limit : ℕ) (qs : QuizState) (qd : Question)
    (ans : String) (now ts : ℚ) (oracle : Except String GradeResult)
    (hact : qs.active = true) (hfin : qs.finished = false)
    (hq : qs.current_q = some qd) (hts : qs.q_start_timestamp = some ts)
    (htime : now - ts > 120) :
    (∀ oracle2 : Except String GradeResult,
      step q_limit qs (.submit ans now oracle2) = step q_limit qs (.submit ans now oracle)) ∧
    (step q_limit qs (.submit ans now oracle)).feedback = some timeoutFeedback ∧
    (step q_limit qs (.submit ans now oracle)).streak = 0 ∧
    (step q_limit qs (.submit ans now oracle)).elo =
      ((calculate_elo qs.elo false qs.elo : ℤ) : ℚ) ∧
    (step q_limit qs (.submit ans now oracle)).history = qs.history ∧
    (step q_limit qs (.submit ans now oracle)).total_score = qs.total_score := by
  have hstep : ∀ oracle2 : Except String GradeResult,
      step q_limit qs (.submit ans now oracle2) =
        { qs with
            feedback := some timeoutFeedback
            elo := ((calculate_elo qs.elo false qs.elo : ℤ) : ℚ)
            streak := 0 } := by
    intro oracle2
    simp [step, hact, hfin, hq, hts, submit_answer, if_pos htime]
  refine ⟨fun oracle2 => by rw [hstep, hstep], ?_, ?_, ?_, ?_, ?_⟩ <;> rw [hstep oracle]

/-- Claim C1, counterexample to the history clause: a concrete timed-out
submission (121 seconds after the question started) leaves the history
exactly as it was — no HistoryEntry at all is appended. -/
theorem C1_history_counterexample :
    ¬ ∃ e : HistoryEntry,
      (step 5 c1State (.submit "a late answer" 121 (.ok sampleGrade))).history =
        c1State.history ++ [e] := by
  rintro ⟨e, he⟩
  have hh : (step 5 c1State (.submit "a late answer" 121 (.ok sampleGrade))).history = [] := by
    simp [step, c1State, start_state, submit_answer]
    norm_num
  rw [hh] at he
  simp [c1State, start_state] at he

/-- Witness for claim C1 at a concrete session and a submission 121
seconds in. -/
theorem C1_timeout_no_grading_witness :
    (step 5 c1State (.submit "late answer" 121 (.ok sampleGrade))).feedback =
      some timeoutFeedback ∧
    (step 5 c1State (.submit "late answer" 121 (.ok sampleGrade))).streak = 0 ∧
    (step 5 c1State (.submit "late answer" 121 (.ok sampleGrade))).history = c1State.history ∧
    step 5 c1State (.submit "late answer" 121 (.error "network down")) =
      step 5 c1State (.submit "late answer" 121 (.ok sampleGrade)) := by
  have h := C1_timeout_no_grading 5 c1State sampleQuestion "late answer" 121 0
    (.ok sampleGrade) rfl rfl rfl rfl (by norm_num)
  exact ⟨h.2.1, h.2.2.1, h.2.2.2.2.1, h.1 (.error "network down")⟩

/-- Claim C3: on a graded (non-timeout, non-empty) submission whose score
is above 70, the effective correctness recorded in the history, used for
the streak increment and fed to the rating update is true, regardless of
the grading result's own boolean. -/
theorem C3_score_override (qs : QuizState) (qd : Question) (ans : String)
    (now ts : ℚ) (res : GradeResult)
    (htime : ¬(now - ts > 120)) (hans : ans ≠ "") (hscore : res.score_percentage > 70) :
    (submit_answer qs qd ans now ts (.ok res)).streak = qs.streak + 1 ∧
    (submit_answer qs qd ans now ts (.ok res)).elo =
      ((calculate_elo qs.elo true
        (qd.difficulty_rating_estimate.getD (get_difficulty_label qs.elo).2.2) : ℤ) : ℚ) ∧
    (submit_answer qs qd ans now ts (.ok res)).history = qs.history ++
      [{ question := qd.question
         user_answer := ans
         is_correct := true
         score_gained := max 0 (res.score_percentage - if qs.hint_used then 50 else 0)
         elo_after := ((calculate_elo qs.elo true
           (qd.difficulty_rating_estimate.getD (get_difficulty_label qs.elo).2.2) : ℤ) : ℚ)
         streak := qs.streak + 1 }] := by
  unfold submit_answer
  rw [if_neg htime, if_neg hans]
  simp [evaluate_answer, hscore]

/-- Witness for claim C3: score 75 with the grader's own boolean false
still increments the streak and updates the rating as a win. -/
theorem C3_score_override_witness :
    (submit_answer (start_state "logic" "logic notes" 1200) sampleQuestion
      "my answer" 10 0 (.ok sampleGrade)).streak = 1 ∧
    (submit_answer (start_state "logic" "logic notes" 1200) sampleQuestion
      "my answer" 10 0 (.ok sampleGrade)).elo = ((calculate_elo 1200 true 1400 : ℤ) : ℚ) ∧
    sampleGrade.is_correct = false := by
  have h := C3_score_override (start_state "logic" "logic notes" 1200) sampleQuestion
    "my answer" 10 0 sampleGrade (by norm_num) (by decide) (by decide)
  exact ⟨h.1, h.2.1, rfl⟩

/-- Claim C4: on a graded submission, the score recorded in the history
and added to the total is the score percentage floored at zero, less 50
when the hint was revealed; the rating update uses the override
correctness and the question's difficulty estimate, and is untouched by
the hint penalty. -/
theorem C4_hint_penalty (qs : QuizState) (qd : Question) (ans : String)
    (now ts : ℚ) (res : GradeResult)
    (htime : ¬(now - ts > 120)) (hans : ans ≠ "") :
    (submit_answer qs qd ans now ts (.ok res)).history = qs.history ++
      [{ question := qd.question
         user_answer := ans
         is_correct := if res.score_percentage > 70 then true else res.is_correct
         score_gained := if qs.hint_used then max 0 (res.score_percentage - 50)
           else max 0 res.score_percentage
         elo_after := ((calculate_elo qs.elo
           (if res.score_percentage > 70 then true else res.is_correct)
           (qd.difficulty_rating_estimate.getD (get_difficulty_label qs.elo).2.2) : ℤ) : ℚ)
         streak := if (if res.score_percentage > 70 then true else res.is_correct) = true
           then qs.streak + 1 else 0 }] ∧
    (submit_answer qs qd ans now ts (.ok res)).total_score = qs.total_score +
      (if qs.hint_used then max 0 (res.score_percentage - 50)
        else max 0 res.score_percentage) ∧
    (submit_answer qs qd ans now ts (.ok res)).elo =
      ((calculate_elo qs.elo (if res.score_percentage > 70 then true else res.is_correct)
        (qd.difficulty_rating_estimate.getD (get_difficulty_label qs.elo).2.2) : ℤ) : ℚ) := by
  unfold submit_answer
  rw [if_neg htime, if_neg hans]
  by_cases hh : qs.hint_used <;> simp [evaluate_answer, hh, sub_zero]

/-- Witness for claim C4: score 80 with the hint revealed records a score
gain of 30 while the rating update still counts the round as a win. -/
theorem C4_hint_penalty_witness :
    (submit_answer c4State sampleQuestion "my answer" 10 0 (.ok grade80)).history =
      [{ question := sampleQuestion.question
         user_answer := "my answer"
         is_correct := true
         score_gained := 30
         elo_after := ((calculate_elo 1200 true 1400 : ℤ) : ℚ)
         streak := 1 }] ∧
    (submit_answer c4State sampleQuestion "my answer" 10 0 (.ok grade80)).total_score = 30 ∧
    (submit_answer c4State sampleQuestion "my answer" 10 0 (.ok grade80)).elo =
      ((calculate_elo 1200 true 1400 : ℤ) : ℚ) := by
  have h := C4_hint_penalty c4State sampleQuestion "my answer" 10 0 grade80
    (by norm_num) (by decide)
  refine ⟨?_, ?_, ?_⟩
  · rw [h.1]
    norm_num [c4State, start_state, grade80, sampleQuestion]
  · rw [h.2.1]
    norm_num [c4State, start_state, grade80]
  · rw [h.2.2]
    norm_num [c4State, start_state, grade80, sampleQuestion]

/-- Claim C9: when the grading call fails, the round completes instead of
aborting — the feedback is the degraded result with correctness false,
score 0 and the failure detail in the explanation, and a history entry for
the round is still appended (counted as incorrect with no score). -/
theorem C9_grading_failure (qs : QuizState) (qd : Question) (ans : String)
    (now ts : ℚ) (e : String)
    (htime : ¬(now - ts > 120)) (hans : ans ≠ "") :
    evaluate_answer (.error e) =
      { is_correct := false
        score_percentage := 0
        explanation := "Error: " ++ e
        model_answer := none
        key_concepts_missed := [] } ∧
    (submit_answer qs qd ans now ts (.error e)).feedback = some (evaluate_answer (.error e)) ∧
    (submit_answer qs qd ans now ts (.error e)).streak = 0 ∧
    (submit_answer qs qd ans now ts (.error e)).history = qs.history ++
      [{ question := qd.question
         user_answer := ans
         is_correct := false
         score_gained := 0
         elo_after := ((calculate_elo qs.elo false
           (qd.difficulty_rating_estimate.getD (get_difficulty_label qs.elo).2.2) : ℤ) : ℚ)
         streak := 0 }] := by
  refine ⟨rfl, ?_, ?_, ?_⟩
  all_goals unfold submit_answer
  all_goals rw [if_neg htime, if_neg hans]
  all_goals try (by_cases hh : qs.hint_used <;> simp [evaluate_answer, hh])

/-- Witness for claim C9 at a concrete failing grading call. -/
theorem C9_grading_failure_witness :
    evaluate_answer (.error "connection reset") =
      { is_correct := false
        score_percentage := 0
        explanation := "Error: connection reset"
        model_answer := none
        key_concepts_missed := [] } ∧
    (submit_answer (start_state "logic" "logic notes" 1200) sampleQuestion
      "my answer" 10 0 (.error "connection reset")).feedback =
      some (evaluate_answer (.error "connection reset")) ∧
    (submit_answer (start_state "logic" "logic notes" 1200) sampleQuestion
      "my answer" 10 0 (.error "connection reset")).history.length = 1 := by
  have h := C9_grading_failure (start_state "logic" "logic notes" 1200) sampleQuestion
    "my answer" 10 0 "connection reset" (by norm_num) (by decide)
  refine ⟨?_, h.2.1, ?_⟩
  · rw [h.1]
    simp
  · rw [h.2.2.2]
    simp [start_state]

/-! ## Session state machine: question index and finishing -/

lemma submit_answer_preserves (qs : QuizState) (qd : Question) (ans : String)
    (now ts : ℚ) (oracle : Except String GradeResult) :
    (submit_answer qs qd ans now ts oracle).q_count = qs.q_count ∧
    (submit_answer qs qd ans now ts oracle).finished = qs.finished ∧
    (submit_answer qs qd ans now ts oracle).active = qs.active := by
  unfold submit_answer
  split_ifs <;> simp

lemma step_qcount_getQuestion (q_limit : ℕ) (qs : QuizState) (q : Question) (now : ℚ) :
    (step q_limit qs (.getQuestion q now)).q_count = qs.q_count := by
  simp only [step]
  split_ifs <;> rfl

lemma step_qcount_hint (q_limit : ℕ) (qs : QuizState) :
    (step q_limit qs .revealHint).q_count = qs.q_count := by
  simp only [step]
  split_ifs <;> rfl

lemma step_submit_preserves (q_limit : ℕ) (qs : QuizState) (ans : String) (now : ℚ)
    (oracle : Except String GradeResult) :
    (step q_limit qs (.submit ans now oracle)).q_count = qs.q_count ∧
    (step q_limit qs (.submit ans now oracle)).finished = qs.finished := by
  simp only [step]
  split_ifs with hg
  · rcases hq : qs.current_q with _ | qd <;>
      rcases hts : qs.q_start_timestamp with _ | ts <;>
      simp [hq, hts]
    exact ⟨(submit_answer_preserves qs qd ans now ts oracle).1,
      (submit_answer_preserves qs qd ans now ts oracle).2.1⟩
  · exact ⟨rfl, rfl⟩

lemma step_qcount_restart (q_limit : ℕ) (qs : QuizState) :
    (step q_limit qs .restart).q_count = qs.q_count := by
  simp only [step]
  split_ifs <;> rfl

lemma step_next_qcount (q_limit : ℕ) (qs : QuizState)
    (hact : qs.active = true) (hfin : qs.finished = false) (hfb : qs.feedback ≠ none) :
    (step q_limit qs .next).q_count = qs.q_count + 1 := by
  simp only [step]
  rw [if_pos ⟨hact, hfin, hfb⟩]

lemma reachable_invariant (q_limit : ℕ) (hL : 0 < q_limit) (qs : QuizState)
    (hr : Reachable q_limit qs) :
    qs.q_count ≤ q_limit ∧ (qs.finished = true ↔ qs.q_count = q_limit) := by
  induction hr with
  | start topic context start_elo =>
      simp [start_state]
      omega
  | step e hr ih =>
      obtain ⟨hle, hiff⟩ := ih
      rename_i qs2
      cases e with
      | getQuestion q now =>
          simp only [step]
          split_ifs <;> simpa using ⟨hle, hiff⟩
      | revealHint =>
          simp only [step]
          split_ifs <;> simpa using ⟨hle, hiff⟩
      | submit ans now oracle =>
          rw [(step_submit_preserves q_limit qs2 ans now oracle).1,
            (step_submit_preserves q_limit qs2 ans now oracle).2]
          exact ⟨hle, hiff⟩
      | next =>
          simp only [step]
          by_cases hg : qs2.active = true ∧ qs2.finished = false ∧ qs2.feedback ≠ none
          · rw [if_pos hg]
            obtain ⟨hga, hgf, hgfb⟩ := hg
            have hne : qs2.q_count ≠ q_limit := fun hc =>
              absurd (hiff.mpr hc) (by simp [hgf])
            by_cases hfin2 : q_limit ≤ qs2.q_count + 1
            · rw [if_pos hfin2]
              refine ⟨?_, ?_⟩ <;> simp <;> omega
            · rw [if_neg hfin2, hgf]
              refine ⟨?_, ?_⟩ <;> simp <;> omega
          · rw [if_neg hg]
            exact ⟨hle, hiff⟩
      | restart =>
          simp only [step]
          split_ifs <;> simpa using ⟨hle, hiff⟩

lemma cycle_lemma (q_limit : ℕ) (qs : QuizState) (q : Question) (ans : String)
    (res : GradeResult) (hact : qs.active = true) (hfin : qs.finished = false)
    (hq : qs.current_q = none) (hans : ans ≠ "") :
    (step q_limit (step q_limit (step q_limit qs (.getQuestion q 0))
        (.submit ans 10 (.ok res))) .next).active = true ∧
    (step q_limit (step q_limit (step q_limit qs (.getQuestion q 0))
        (.submit ans 10 (.ok res))) .next).current_q = none ∧
    (step q_limit (step q_limit (step q_limit qs (.getQuestion q 0))
        (.submit ans 10 (.ok res))) .next).finished =
      (if q_limit ≤ qs.q_count + 1 then true else false) ∧
    (step q_limit (step q_limit (step q_limit qs (.getQuestion q 0))
        (.submit ans 10 (.ok res))) .next).q_count = qs.q_count + 1 := by
  refine ⟨?_, ?_, ?_, ?_⟩ <;>
    norm_num [step, submit_answer, evaluate_answer, hact, hfin, hq, hans, Option.some_ne_none]

noncomputable def c8Cycle (qs : QuizState) : QuizState :=
  step 3 (step 3 (step 3 qs (.getQuestion sampleQuestion 0))
    (.submit "my answer" 10 (.ok sampleGrade))) .next

noncomputable def c8Final : QuizState :=
  c8Cycle (c8Cycle (c8Cycle (start_state "logic" "logic notes" 1200)))

lemma c8Final_facts :
    c8Final.finished = true ∧ c8Final.q_count = 3 ∧ c8Final.active = true := by
  have hans : ("my answer" : String) ≠ "" := by decide
  obtain ⟨ha1, hq1, hf1, hc1⟩ := cycle_lemma 3 (start_state "logic" "logic notes" 1200)
    sampleQuestion "my answer" sampleGrade rfl rfl rfl hans
  have ha1b : (c8Cycle (start_state "logic" "logic notes" 1200)).active = true := ha1
  have hq1b : (c8Cycle (start_state "logic" "logic notes" 1200)).current_q = none := hq1
  have hf1b : (c8Cycle (start_state "logic" "logic notes" 1200)).finished = false := hf1
  have hc1b : (c8Cycle (start_state "logic" "logic notes" 1200)).q_count = 1 := hc1
  obtain ⟨ha2, hq2, hf2, hc2⟩ := cycle_lemma 3 (c8Cycle (start_state "logic" "logic notes" 1200))
    sampleQuestion "my answer" sampleGrade ha1b hf1b hq1b hans
  have ha2b : (c8Cycle (c8Cycle (start_state "logic" "logic notes" 1200))).active = true := ha2
  have hq2b : (c8Cycle (c8Cycle (start_state "logic" "logic notes" 1200))).current_q = none := hq2
  have hf2t : (c8Cycle (c8Cycle (start_state "logic" "logic notes" 1200))).finished =
      if 3 ≤ (c8Cycle (start_state "logic" "logic notes" 1200)).q_count + 1 then true
      else false := hf2
  have hc2t : (c8Cycle (c8Cycle (start_state "logic" "logic notes" 1200))).q_count =
      (c8Cycle (start_state "logic" "logic notes" 1200)).q_count + 1 := hc2
  have hf2b : (c8Cycle (c8Cycle (start_state "logic" "logic notes" 1200))).finished = false := by
    rw [hf2t, hc1b]; decide
  have hc2b : (c8Cycle (c8Cycle (start_state "logic" "logic notes" 1200))).q_count = 2 := by
    rw [hc2t, hc1b]
  obtain ⟨ha3, hq3, hf3, hc3⟩ := cycle_lemma 3
    (c8Cycle (c8Cycle (start_state "logic" "logic notes" 1200)))
    sampleQuestion "my answer" sampleGrade ha2b hf2b hq2b hans
  have hf3t : c8Final.finished =
      if 3 ≤ (c8Cycle (c8Cycle (start_state "logic" "logic notes" 1200))).q_count + 1 then true
      else false := hf3
  have hc3t : c8Final.q_count =
      (c8Cycle (c8Cycle (start_state "logic" "logic notes" 1200))).q_count + 1 := hc3
  refine ⟨?_, ?_, ha3⟩
  · rw [hf3t, hc2b]; decide
  · rw [hc3t, hc2b]

lemma c8Final_reachable : Reachable 3 c8Final := by
  exact Reachable.step Event.next
    (Reachable.step (Event.submit "my answer" 10 (Except.ok sampleGrade))
    (Reachable.step (Event.getQuestion sampleQuestion 0)
    (Reachable.step Event.next
    (Reachable.step (Event.submit "my answer" 10 (Except.ok sampleGrade))
    (Reachable.step (Event.getQuestion sampleQuestion 0)
    (Reachable.step Event.next
    (Reachable.step (Event.submit "my answer" 10 (Except.ok sampleGrade))
    (Reachable.step (Event.getQuestion sampleQuestion 0)
    (Reachable.start "logic" "logic notes" 1200)))))))))

lemma step_on_finished (q_limit : ℕ) (qs : QuizState) (hfin : qs.finished = true)
    (q : Question) (now2 : ℚ) (ans : String) (oracle : Except String GradeResult) :
    step q_limit qs (.getQuestion q now2) = qs ∧
    step q_limit qs .revealHint = qs ∧
    step q_limit qs (.submit ans now2 oracle) = qs ∧
    step q_limit qs .next = qs := by
  refine ⟨?_, ?_, ?_, ?_⟩ <;> simp only [step] <;> rw [if_neg (by simp [hfin])]

/-- Claim C8: the question index is preserved by every event except the
advance; the advance increments it by exactly one; on every reachable
state the index never exceeds the question limit and the session is
finished exactly when the index equals the limit; concretely, with limit 3
the three-cycle run reaches the finished state with index 3, and from
there the question-round events (new question, hint, submit, advance) are
all inert. -/
theorem C8_question_index_finished (q_limit : ℕ) (hL : 0 < q_limit) :
    (∀ (qs : QuizState) (q : Question) (now2 : ℚ),
      (step q_limit qs (Event.getQuestion q now2)).q_count = qs.q_count) ∧
    (∀ qs : QuizState, (step q_limit qs Event.revealHint).q_count = qs.q_count) ∧
    (∀ (qs : QuizState) (ans : String) (now2 : ℚ) (oracle : Except String GradeResult),
      (step q_limit qs (Event.submit ans now2 oracle)).q_count = qs.q_count) ∧
    (∀ qs : QuizState, (step q_limit qs Event.restart).q_count = qs.q_count) ∧
    (∀ qs : QuizState, qs.active = true → qs.finished = false → qs.feedback ≠ none →
      (step q_limit qs Event.next).q_count = qs.q_count + 1) ∧
    (∀ qs : QuizState, Reachable q_limit qs →
      qs.q_count ≤ q_limit ∧ (qs.finished = true ↔ qs.q_count = q_limit)) ∧
    (c8Final.finished = true ∧ c8Final.q_count = 3 ∧ Reachable 3 c8Final) ∧
    (∀ (q : Question) (now2 : ℚ) (ans : String) (oracle : Except String GradeResult),
      step 3 c8Final (Event.getQuestion q now2) = c8Final ∧
      step 3 c8Final Event.revealHint = c8Final ∧
      step 3 c8Final (Event.submit ans now2 oracle) = c8Final ∧
      step 3 c8Final Event.next = c8Final) := by
  refine ⟨step_qcount_getQuestion q_limit, step_qcount_hint q_limit,
    fun qs ans now2 oracle => (step_submit_preserves q_limit qs ans now2 oracle).1,
    step_qcount_restart q_limit,
    fun qs hact hfin hfb => step_next_qcount q_limit qs hact hfin hfb,
    fun qs hr => reachable_invariant q_limit hL qs hr,
    ⟨c8Final_facts.1, c8Final_facts.2.1, c8Final_reachable⟩,
    fun q now2 ans oracle => step_on_finished 3 c8Final c8Final_facts.1 q now2 ans oracle⟩

/-- Witness for claim C8: the concrete three-cycle run with limit 3 ends
finished with index 3, a further advance is inert, and a question fetch on
the fresh state does not change the index. -/
theorem C8_question_index_finished_witness :
    c8Final.finished = true ∧ c8Final.q_count = 3 ∧
    step 3 c8Final Event.next = c8Final ∧
    (step 3 (start_state "logic" "logic notes" 1200)
      (Event.getQuestion sampleQuestion 0)).q_count = 0 := by
  have h := C8_question_index_finished 3 (by norm_num)
  exact ⟨h.2.2.2.2.2.2.1.1, h.2.2.2.2.2.2.1.2.1,
    (h.2.2.2.2.2.2.2 sampleQuestion 0 "my answer" (Except.ok sampleGrade)).2.2.2,
    h.1 (start_state "logic" "logic notes" 1200) sampleQuestion 0⟩
